import Mathlib

/-!
Shallow embedding of `internal/provider/snyk.go` from the scan-cli-plugin
repository, together with the library behaviour it relies on
(Masterminds/semver v3 constraint checking, google/uuid parsing).

External effects (the ambient environment, the home directory lookup, the
snyk config file, JSON unmarshalling, the Docker identity service, the
spawned subprocess) are modelled as oracle fields of a `World` record; the
provider functions are deterministic functions of that world, mirroring the
Go control flow statement by statement.
-/

namespace ScanPlugin

/-- Go `error` values that appear in this code base: the `exec.ErrNotFound`
sentinel, `*exec.Error`, `*os.PathError`, `*exec.ExitError` (non-zero exit,
with the exit code), the plugin's own `invalidTokenError` (modelled from the
spec: its definition lives outside the provider package), and a generic
`fmt.Errorf` error carrying only a message. `none : Option GoError` stands
for Go's `nil` error. -/
inductive GoError where
  | execErrNotFound : GoError
  | execError (msg : String) : GoError
  | pathError (msg : String) : GoError
  | exitError (code : Nat) (msg : String) : GoError
  | invalidToken (token : String) : GoError
  | errorf (msg : String) : GoError
  deriving DecidableEq, Repr

/-- The text `%s`/`Error()` produces for each error, as far as this code
needs it. The `invalidTokenError` message is modelled from the spec
(invalid-token-format class); no claim depends on its exact wording. -/
def errorMessage : GoError → String
  | .execErrNotFound => "executable file not found in $PATH"
  | .execError m => m
  | .pathError m => m
  | .exitError _ m => m
  | .invalidToken t => "invalid token " ++ t
  | .errorf m => m

/-- `checkCommandErr` on a non-nil error (the Go function's body after its
`err == nil` guard): the `exec.ErrNotFound` sentinel, any `*exec.Error` and
any `*os.PathError` all become the single user-facing message; everything
else is returned unchanged. -/
def checkCommandErrE (e : GoError) : GoError :=
  if e = .execErrNotFound then .errorf "could not find Snyk binary"
  else
    match e with
    | .execError _ => .errorf "could not find Snyk binary"
    | .pathError _ => .errorf "could not find Snyk binary"
    | _ => e

/-- `checkCommandErr` from snyk.go: `nil` maps to `nil`, a non-nil error is
normalised by `checkCommandErrE`. -/
def checkCommandErr : Option GoError → Option GoError
  | none => none
  | some e => some (checkCommandErrE e)

/-- Provider `Options` (modelled from the spec: the `Options` struct is
defined outside `snyk.go`; the spec lists "scanner binary path, execution
context, flag list, output streams" — the context and the stream handles
have no observable content in this embedding). -/
structure Options where
  path : String
  flags : List String
  deriving DecidableEq, Repr

/-- `snykProvider` embeds `Options`. -/
structure snykProvider where
  options : Options
  deriving DecidableEq, Repr

/-- The observable part of an `exec.Cmd` built by the provider: binary path,
argument list, and the environment given to the subprocess. -/
structure Cmd where
  path : String
  args : List String
  env : List String
  deriving DecidableEq, Repr

/-- `snykConfig` — the scanner's own config file, `{"api": "<token>"}`. -/
structure SnykConfig where
  api : String
  deriving DecidableEq, Repr

/-- Result of `ioutil.ReadFile` on the snyk config file: the file does not
exist (`os.IsNotExist` holds of the error), some other read error, or the
file contents. -/
inductive ReadFileResult where
  | notExist : ReadFileResult
  | err (e : GoError) : ReadFileResult
  | ok (contents : String) : ReadFileResult
  deriving Repr

/-- Oracle for everything outside the process: `os.Environ()`,
`homedir.Dir()`, the snyk config file read, `json.Unmarshal` into
`snykConfig`, `getToken` (modelled from the spec: the identity-service
client lives outside `snyk.go`; it yields a token or an error), and the
subprocess outcome of `cmd.Run()` together with the text the subprocess
writes to the stdout/stderr buffers. -/
structure World where
  osEnviron : List String
  homedir : Except GoError String
  snykConfFile : ReadFileResult
  jsonUnmarshalSnykConfig : String → Except GoError SnykConfig
  getToken : Except GoError String
  runResult : Cmd → Option GoError
  runStdout : Cmd → String
  runStderr : Cmd → String

/-- The three environment entries `newCommand` appends to `os.Environ()`. -/
def snykBaseEnv : List String :=
  ["NO_UPDATE_NOTIFIER=true",
   "SNYK_CFG_DISABLESUGGESTIONS=true",
   "SNYK_INTEGRATION_NAME=DOCKER_DESKTOP"]

/-- The three campaign-tracking entries `Authenticate` appends. -/
def snykUtmEnv : List String :=
  ["SNYK_UTM_MEDIUM=Partner",
   "SNYK_UTM_SOURCE=Docker",
   "SNYK_UTM_CAMPAIGN=Docker-Desktop-2020"]

/-- `(s *snykProvider) newCommand`: a command on the provider's binary path
whose environment is the ambient environment extended by the three base
entries. -/
def newCommand (osEnviron : List String) (s : snykProvider) (args : List String) : Cmd :=
  { path := s.options.path, args := args, env := osEnviron ++ snykBaseEnv }

/-! ### google/uuid `Parse`, as a boolean validity test -/

/-- Hexadecimal digit test (`xtob` accepts `0-9a-fA-F`). -/
def isHexChar (c : Char) : Bool :=
  c.isDigit || ('a' ≤ c && c ≤ 'f') || ('A' ≤ c && c ≤ 'F')

/-- Positions of the first byte of each hex pair in a canonical 36-byte
UUID, as in google/uuid's `Parse`. -/
def uuidHexPositions : List Nat :=
  [0, 2, 4, 6, 9, 11, 14, 16, 19, 21, 24, 26, 28, 30, 32, 34]

/-- The body check of google/uuid `Parse` once `s` is at least 36 bytes:
dashes at offsets 8, 13, 18, 23 and hex digits at the 16 pairs. -/
def uuidCanonicalCheck (l : List Char) : Bool :=
  l.getD 8 ' ' = '-' && l.getD 13 ' ' = '-' && l.getD 18 ' ' = '-' && l.getD 23 ' ' = '-'
    && uuidHexPositions.all (fun i => isHexChar (l.getD i ' ') && isHexChar (l.getD (i + 1) ' '))

/-- `uuid.Parse` succeeds: length 36 (canonical), 45 (`urn:uuid:` prefix,
case-insensitive), 38 (brace form — the Go code only drops the first byte),
or 32 (plain hex). -/
def uuidParse (s : String) : Bool :=
  let l := s.data
  if l.length = 36 then uuidCanonicalCheck l
  else if l.length = 36 + 9 then
    ((l.take 9).map Char.toLower = "urn:uuid:".data) && uuidCanonicalCheck (l.drop 9)
  else if l.length = 36 + 2 then uuidCanonicalCheck (l.drop 1)
  else if l.length = 32 then l.all isHexChar
  else false

/-! ### The provider operations -/

/-- The `exec.Cmd` that `Authenticate` runs: `auth <token>` with the
campaign environment entries appended after the base ones. -/
def authenticateCmd (w : World) (s : snykProvider) (token : String) : Cmd :=
  let cmd := newCommand w.osEnviron s ["auth", token]
  { cmd with env := cmd.env ++ snykUtmEnv }

/-- `(s *snykProvider) Authenticate`: a non-empty token that does not parse
as a UUID is rejected with `invalidTokenError` before any command is built;
otherwise the `auth` command is run and its error normalised by
`checkCommandErr`. Returns the command that was run (if any) alongside the
Go return value. -/
def Authenticate (w : World) (s : snykProvider) (token : String) :
    Option Cmd × Option GoError :=
  if token ≠ "" ∧ uuidParse token = false then
    (none, some (.invalidToken token))
  else
    (some (authenticateCmd w s token),
      checkCommandErr (w.runResult (authenticateCmd w s token)))

/-- `isAuthenticatedOnSnyk`: resolve the home directory, read
`~/.config/configstore/snyk.json` (a missing file is "not authenticated":
empty token, nil error), unmarshal it and return its `api` field. -/
def isAuthenticatedOnSnyk (w : World) : String × Option GoError :=
  match w.homedir with
  | .error e => ("", some e)
  | .ok _ =>
    match w.snykConfFile with
    | .notExist => ("", none)
    | .err e => ("", some e)
    | .ok buff =>
      match w.jsonUnmarshalSnykConfig buff with
      | .error e => ("", some e)
      | .ok config => (config.api, none)

/-- The command `Scan` builds before choosing a token variable:
`newCommand(append(s.flags, image)...)`. -/
def scanBaseCmd (w : World) (s : snykProvider) (image : String) : Cmd :=
  newCommand w.osEnviron s (s.options.flags ++ [image])

/-- The scan command after `SNYK_DOCKER_TOKEN=<token>` is appended to its
environment (the unauthenticated branch). -/
def scanDockerTokenCmd (w : World) (s : snykProvider) (image token : String) : Cmd :=
  { scanBaseCmd w s image with
    env := (scanBaseCmd w s image).env ++ ["SNYK_DOCKER_TOKEN=" ++ token] }

/-- The scan command after `SNYK_TOKEN=<token>` is appended to its
environment (the authenticated branch). -/
def scanSnykTokenCmd (w : World) (s : snykProvider) (image token : String) : Cmd :=
  { scanBaseCmd w s image with
    env := (scanBaseCmd w s image).env ++ ["SNYK_TOKEN=" ++ token] }

/-- `(s *snykProvider) Scan`: build the command from the accumulated flags
plus the image; if the local config yields an empty token or an error,
fetch a token from the identity service (failing with the
`failed to get DockerScanID` error) and pass it as `SNYK_DOCKER_TOKEN`,
otherwise pass the discovered token as `SNYK_TOKEN`; run the command and
normalise its error. Returns the command that was run (if any) alongside
the Go return value. -/
def Scan (w : World) (s : snykProvider) (image : String) :
    Option Cmd × Option GoError :=
  if (isAuthenticatedOnSnyk w).1 = "" ∨ (isAuthenticatedOnSnyk w).2.isSome then
    match w.getToken with
    | .error e =>
      (none, some (.errorf ("failed to get DockerScanID: " ++ errorMessage e)))
    | .ok token =>
      (some (scanDockerTokenCmd w s image token),
        checkCommandErr (w.runResult (scanDockerTokenCmd w s image token)))
  else
    (some (scanSnykTokenCmd w s image (isAuthenticatedOnSnyk w).1),
      checkCommandErr (w.runResult (scanSnykTokenCmd w s image (isAuthenticatedOnSnyk w).1)))

/-- `strings.TrimSpace`, on the character list of the string. -/
def goTrimSpace (s : String) : String :=
  ⟨((s.data.dropWhile Char.isWhitespace).reverse.dropWhile Char.isWhitespace).reverse⟩

/-- The `exec.Cmd` that `Version` runs. -/
def versionCmd (w : World) (s : snykProvider) : Cmd :=
  newCommand w.osEnviron s ["--version"]

/-- The error message `Version` builds on a run failure: the normalised run
error after `failed to get snyk version: `, then `,<stderr>` exactly when
the stderr buffer is non-empty. -/
def versionErrMsg (e : GoError) (stderr : String) : String :=
  if stderr ≠ "" then
    "failed to get snyk version: " ++ errorMessage (checkCommandErrE e) ++ "," ++ stderr
  else
    "failed to get snyk version: " ++ errorMessage (checkCommandErrE e)

/-- `(s *snykProvider) Version`: on success, `Snyk (<trimmed stdout>)`; on
failure, an empty string and the `versionErrMsg` error. -/
def Version (w : World) (s : snykProvider) : String × Option GoError :=
  match w.runResult (versionCmd w s) with
  | none => ("Snyk (" ++ goTrimSpace (w.runStdout (versionCmd w s)) ++ ")", none)
  | some e =>
    ("", some (.errorf (versionErrMsg e (w.runStderr (versionCmd w s)))))

/-! ### Masterminds/semver v3, as used by the version gate -/

/-- Split a character list at every occurrence of `sep`
(`strings.Split` semantics: always at least one part). -/
def splitChars (sep : Char) : List Char → List (List Char)
  | [] => [[]]
  | c :: rest =>
    let r := splitChars sep rest
    if c = sep then [] :: r
    else
      match r with
      | [] => [[c]]
      | h :: t => (c :: h) :: t

/-- Split at the first occurrence of `sep`, if any. -/
def splitFirst (sep : Char) : List Char → Option (List Char × List Char)
  | [] => none
  | c :: rest =>
    if c = sep then some ([], rest)
    else (splitFirst sep rest).map (fun p => (c :: p.1, p.2))

/-- Every character is a decimal digit. -/
def allDigits (l : List Char) : Bool := l.all Char.isDigit

/-- Value of a decimal digit string. -/
def parseNatDigits (l : List Char) : Nat :=
  l.foldl (fun n c => n * 10 + (c.toNat - 48)) 0

/-- Characters allowed in a prerelease or metadata identifier:
`[0-9A-Za-z-]`. -/
def isIdentChar (c : Char) : Bool := c.isAlphanum || c = '-'

/-- A dot-separated identifier list is well formed: non-empty, every
identifier non-empty and over the allowed alphabet. -/
def validIdentParts (parts : List (List Char)) : Bool :=
  !parts.isEmpty && parts.all (fun p => !p.isEmpty && p.all isIdentChar)

/-- A parsed semantic version: core numbers, the prerelease identifier
list, and the build metadata string (empty when absent; metadata is
ignored by comparison but printed by `Version.String()`). -/
structure Semver where
  major : Nat
  minor : Nat
  patch : Nat
  pre : List String
  metadata : String
  deriving DecidableEq, Repr

/-- The version core: one to three non-empty digit runs separated by dots,
missing positions defaulting to zero (the lenient `NewVersion` pattern). -/
def parseCore (l : List Char) : Option (Nat × Nat × Nat) :=
  match splitChars '.' l with
  | [a] =>
    if !a.isEmpty && allDigits a then some (parseNatDigits a, 0, 0) else none
  | [a, b] =>
    if !a.isEmpty && allDigits a && !b.isEmpty && allDigits b then
      some (parseNatDigits a, parseNatDigits b, 0)
    else none
  | [a, b, c] =>
    if !a.isEmpty && allDigits a && !b.isEmpty && allDigits b && !c.isEmpty && allDigits c then
      some (parseNatDigits a, parseNatDigits b, parseNatDigits c)
    else none
  | _ => none

/-- `semver.NewVersion` (the lenient parser): optional `v` prefix, version
core, optional `-<prerelease>` (split at the first dash after the core;
identifiers may themselves contain dashes), optional `+<metadata>`. -/
def semverNewVersion (s : String) : Option Semver :=
  let l := if s.data.headD ' ' = 'v' then s.data.tail else s.data
  let step :=
    match splitFirst '+' l with
    | none => some (l, ("" : String))
    | some (before, meta) =>
      if validIdentParts (splitChars '.' meta) then some (before, (⟨meta⟩ : String))
      else none
  match step with
  | none => none
  | some (beforeMeta, metadata) =>
    let core_pre :=
      match splitFirst '-' beforeMeta with
      | none => some (beforeMeta, ([] : List String))
      | some (core, pre) =>
        let parts := splitChars '.' pre
        if validIdentParts parts then some (core, parts.map (fun p => (⟨p⟩ : String)))
        else none
    match core_pre with
    | none => none
    | some (core, pre) =>
      match parseCore core with
      | none => none
      | some (ma, mi, pa) => some ⟨ma, mi, pa, pre, metadata⟩

/-- Go `strconv.ParseUint(s, 10, 64)` success, as far as prerelease
identifiers go: a non-empty digit run — no sign prefix is permitted, so a
dash-led identifier such as `-99` is alphanumeric to the comparison.
(Identifiers of 2^64 or more would overflow `ParseUint` and fall back to
string comparison; such versions are out of scope here.) -/
def parseUintGo (l : List Char) : Option Nat :=
  if !l.isEmpty && allDigits l then some (parseNatDigits l) else none

/-- Byte-wise lexicographic comparison of identifiers (Go string `<`/`>`;
the identifier alphabet is ASCII so character order is byte order). -/
def cmpCharList : List Char → List Char → Ordering
  | [], [] => .eq
  | [], _ :: _ => .lt
  | _ :: _, [] => .gt
  | a :: as, b :: bs =>
    if a.toNat < b.toNat then .lt
    else if b.toNat < a.toNat then .gt
    else cmpCharList as bs

/-- Masterminds `comparePrePart`: equal parts tie; an absent (empty) part
ranks below a present one; numeric parts (per `ParseUint`) rank below
alphanumeric ones and compare as numbers among themselves; alphanumeric
parts compare as strings. -/
def comparePrePart (s o : String) : Int :=
  if s = o then 0
  else if s = "" then (if o ≠ "" then -1 else 1)
  else if o = "" then 1
  else
    match parseUintGo s.data, parseUintGo o.data with
    | none, none => if cmpCharList s.data o.data = .gt then 1 else -1
    | some _, none => -1
    | none, some _ => 1
    | some si, some oi => if si > oi then 1 else -1

/-- The prerelease comparison loop of Masterminds `comparePrerelease`:
iterate `max` length times over the identifier lists, padding the shorter
one with empty parts; first non-tie decides. -/
def comparePreListsAux : Nat → List String → List String → Int
  | 0, _, _ => 0
  | n + 1, a, b =>
    match a, b with
    | [], [] => 0
    | _, _ =>
      let d := comparePrePart (a.headD "") (b.headD "")
      if d ≠ 0 then d else comparePreListsAux n a.tail b.tail

/-- Prerelease identifier list comparison. -/
def comparePreLists (a b : List String) : Int :=
  comparePreListsAux (max a.length b.length) a b

/-- Masterminds `Version.Compare`: major, minor, patch numerically; a
release outranks any prerelease; otherwise the prerelease lists decide. -/
def semverCompare (v o : Semver) : Int :=
  if v.major ≠ o.major then (if v.major > o.major then 1 else -1)
  else if v.minor ≠ o.minor then (if v.minor > o.minor then 1 else -1)
  else if v.patch ≠ o.patch then (if v.patch > o.patch then 1 else -1)
  else
    match v.pre, o.pre with
    | [], [] => 0
    | [], _ :: _ => 1
    | _ :: _, [] => -1
    | ps, os => comparePreLists ps os

/-- Masterminds `>=` constraint check: a prerelease version never satisfies
a constraint whose version has no prerelease; otherwise the comparison must
be non-negative. This is the "standard semantic-version range semantics"
the spec appeals to. -/
def constraintCheckGE (con v : Semver) : Bool :=
  if !v.pre.isEmpty && con.pre.isEmpty then false
  else decide (0 ≤ semverCompare v con)

/-- `semver.NewConstraint(">=" + desktopVersion)` succeeds exactly when the
version after the operator parses (wildcard and multi-range constraint
forms never arise from `minimalSnykVersion`). -/
def semverNewConstraintGE (desktopVersion : String) : Option Semver :=
  semverNewVersion desktopVersion

/-- `minimalSnykVersion`, with the `SnykDesktopVersion` build-time variable
as a parameter. -/
def minimalSnykVersion (desktopVersion : String) : String :=
  ">=" ++ desktopVersion

/-- `cleanVersion`: trim space, keep the first space-separated token. -/
def cleanVersion (version : String) : String :=
  ⟨(splitChars ' ' (goTrimSpace version).data).headD []⟩

/-- `Version.String()` rendering used by the warning message:
`major.minor.patch`, then `-<prerelease>` and `+<metadata>` when present. -/
def semverToString (v : Semver) : String :=
  toString v.major ++ "." ++ toString v.minor ++ "." ++ toString v.patch
    ++ (if v.pre.isEmpty then "" else "-" ++ String.intercalate "." v.pre)
    ++ (if v.metadata = "" then "" else "+" ++ v.metadata)

/-- The warning `checkUserSnykBinaryVersion` emits when the installed
version fails the constraint. -/
def versionWarning (ver : Semver) (desktopVersion : String) : String :=
  "The Snyk version " ++ semverToString ver
    ++ " installed on your system is older as the one embedded by Docker Desktop ("
    ++ minimalSnykVersion desktopVersion ++ "), using embedded Snyk version instead.\n"

/-- `checkUserSnykBinaryVersion`: run `path --version` (its outcome is the
`runRes` oracle — an error, or the captured stdout), parse the cleaned
output, parse the `>=` constraint, and check it; a failed check pairs
`false` with the fallback warning. -/
def checkUserSnykBinaryVersion (runRes : Except GoError String)
    (desktopVersion : String) : Bool × Option GoError :=
  match runRes with
  | .error e => (false, some e)
  | .ok out =>
    match semverNewVersion (cleanVersion out) with
    | none => (false, some (.errorf "Invalid Semantic Version"))
    | some ver =>
      match semverNewConstraintGE desktopVersion with
      | none =>
        (false, some (.errorf ("improper constraint: " ++ minimalSnykVersion desktopVersion)))
      | some con =>
        let matchConstraint := constraintCheckGE con ver
        if !matchConstraint then
          (matchConstraint, some (.errorf (versionWarning ver desktopVersion)))
        else
          (matchConstraint, none)

/-! ### Provider construction -/

/-- `SnykProviderOps`: a Go option function mutates the provider through a
pointer and may fail; in the embedding it maps the provider state to a new
state or an error. -/
def SnykProviderOps := snykProvider → Except GoError snykProvider

/-- The loop body of `NewSnykProvider`: apply the option functions in list
order, stopping at the first error. -/
def applySnykOps (p : snykProvider) : List SnykProviderOps → Except GoError snykProvider
  | [] => .ok p
  | op :: rest =>
    match op p with
    | .error e => .error e
    | .ok p2 => applySnykOps p2 rest

/-- `NewSnykProvider`: start from the default `Options` and apply the
option functions in order. -/
def NewSnykProvider (defaultProvider : Options) (snykOps : List SnykProviderOps) :
    Except GoError snykProvider :=
  applySnykOps ⟨defaultProvider⟩ snykOps

/-! ### Concrete sample data for evaluating the model -/

/-- A concrete provider. -/
def sampleProvider : snykProvider :=
  ⟨⟨"/usr/bin/snyk", ["container", "test"]⟩⟩

/-- A world in which the snyk config file exists, unmarshals, and carries
the token `tok`, while every subprocess exits with status 1. -/
def authWorld : World :=
  { osEnviron := ["PATH=/usr/bin"]
    homedir := .ok "/home/user"
    snykConfFile := .ok "api tok"
    jsonUnmarshalSnykConfig := fun c =>
      if c = "api tok" then .ok ⟨"tok"⟩ else .error (.errorf "invalid character")
    getToken := .ok "dtok"
    runResult := fun _ => some (.exitError 1 "exit status 1")
    runStdout := fun _ => ""
    runStderr := fun _ => "" }

/-- A world with no snyk config file and a working identity service. -/
def unauthWorld : World :=
  { authWorld with snykConfFile := .notExist, runResult := fun _ => none }

/-- A world with no snyk config file and a failing identity service. -/
def tokenFailWorld : World :=
  { unauthWorld with getToken := .error (.errorf "boom") }

/-- An option function that replaces the provider's flag list. -/
def setFlagsOp (flags : List String) : SnykProviderOps :=
  fun p => .ok ⟨⟨p.options.path, flags⟩⟩

/-- An option function that always fails. -/
def failingOp (msg : String) : SnykProviderOps :=
  fun _ => .error (.errorf msg)

/-! ## Theorems -/

/-- If normalising a non-nil error yields the `invalidTokenError`, the
error already was that `invalidTokenError`. -/
theorem checkCommandErrE_invalidToken (e : GoError) (t : String)
    (h : checkCommandErrE e = .invalidToken t) : e = .invalidToken t := by
  cases e <;> simp_all [checkCommandErrE]

/-- Applying option functions distributes over list append: the second
batch runs only if the first one succeeded. -/
theorem applySnykOps_append (p : snykProvider) (l1 l2 : List SnykProviderOps) :
    applySnykOps p (l1 ++ l2) =
      match applySnykOps p l1 with
      | .error e => .error e
      | .ok q => applySnykOps q l2 := by
  induction l1 generalizing p with
  | nil => simp [applySnykOps]
  | cons op rest ih =>
    simp only [List.cons_append, applySnykOps]
    cases op p with
    | error e => rfl
    | ok p2 => exact ih p2

/-- Claim C5: `checkCommandErr` returns nil exactly on nil; the
`exec.ErrNotFound` sentinel, every `*exec.Error` and every `*os.PathError`
map to the single message `could not find Snyk binary`; every other error
(non-zero exits, plugin errors, generic errors) is returned unchanged. -/
theorem checkCommandErr_error_classes :
    checkCommandErr none = none ∧
    (∀ e : GoError, (checkCommandErr (some e)).isSome = true) ∧
    checkCommandErr (some .execErrNotFound) = some (.errorf "could not find Snyk binary") ∧
    (∀ m, checkCommandErr (some (.execError m)) = some (.errorf "could not find Snyk binary")) ∧
    (∀ m, checkCommandErr (some (.pathError m)) = some (.errorf "could not find Snyk binary")) ∧
    (∀ c m, checkCommandErr (some (.exitError c m)) = some (.exitError c m)) ∧
    (∀ t, checkCommandErr (some (.invalidToken t)) = some (.invalidToken t)) ∧
    (∀ m, checkCommandErr (some (.errorf m)) = some (.errorf m)) := by
  refine ⟨rfl, fun e => by simp [checkCommandErr], rfl, ?_, ?_, ?_, ?_, ?_⟩ <;>
    intros <;> simp [checkCommandErr, checkCommandErrE]

/-- Claim C10: the boolean result and the error of
`checkUserSnykBinaryVersion` are exactly correlated — `true` appears with a
nil error and `false` always carries a non-nil error. -/
theorem checkUserSnykBinaryVersion_true_iff_no_error
    (runRes : Except GoError String) (desktopVersion : String) :
    (checkUserSnykBinaryVersion runRes desktopVersion).1 = true ↔
      (checkUserSnykBinaryVersion runRes desktopVersion).2 = none := by
  unfold checkUserSnykBinaryVersion
  cases runRes with
  | error e => simp
  | ok out =>
    rcases h1 : semverNewVersion (cleanVersion out) with _ | ver
    · simp [h1]
    · rcases h2 : semverNewConstraintGE desktopVersion with _ | con
      · simp [h1, h2]
      · rcases h3 : constraintCheckGE con ver <;> simp [h1, h2, h3]

/-- Claim C8: `NewSnykProvider` starts from the default options and applies
the option functions in list order; the first failing option aborts
construction with its error, whatever follows it; a succeeding option hands
its updated provider to the remaining options. -/
theorem NewSnykProvider_option_order (d : Options) (ops1 ops2 : List SnykProviderOps)
    (op : SnykProviderOps) (p : snykProvider) :
    NewSnykProvider d [] = .ok ⟨d⟩ ∧
    (NewSnykProvider d ops1 = .ok p →
      (∀ e, op p = .error e → NewSnykProvider d (ops1 ++ op :: ops2) = .error e) ∧
      (∀ p2, op p = .ok p2 → NewSnykProvider d (ops1 ++ op :: ops2) = applySnykOps p2 ops2)) := by
  refine ⟨rfl, fun h => ⟨?_, ?_⟩⟩
  · intro e he
    unfold NewSnykProvider at *
    rw [applySnykOps_append, h]
    simp [applySnykOps, he]
  · intro p2 hp2
    unfold NewSnykProvider at *
    rw [applySnykOps_append, h]
    simp [applySnykOps, hp2]

/-- Claim C8 witness: a failing second option aborts with its error and the
third option never runs. -/
theorem NewSnykProvider_option_order_witness :
    NewSnykProvider ⟨"/usr/bin/snyk", []⟩
        ([setFlagsOp ["a"]] ++ failingOp "bad option" :: [setFlagsOp ["b"]]) =
      .error (.errorf "bad option") :=
  ((NewSnykProvider_option_order ⟨"/usr/bin/snyk", []⟩ [setFlagsOp ["a"]]
      [setFlagsOp ["b"]] (failingOp "bad option") ⟨⟨"/usr/bin/snyk", ["a"]⟩⟩).2
    rfl).1 (.errorf "bad option") rfl

/-- Claim C9: `isAuthenticatedOnSnyk` treats a missing config file as "not
authenticated" (empty token, nil error); an unreadable file, or one that
fails to unmarshal, yields a non-nil error; a well-formed file yields its
`api` field. -/
theorem isAuthenticatedOnSnyk_cases (w : World) :
    (∀ h, w.homedir = .ok h →
      (w.snykConfFile = .notExist → isAuthenticatedOnSnyk w = ("", none)) ∧
      (∀ e, w.snykConfFile = .err e → isAuthenticatedOnSnyk w = ("", some e)) ∧
      (∀ c, w.snykConfFile = .ok c →
        (∀ e, w.jsonUnmarshalSnykConfig c = .error e →
          isAuthenticatedOnSnyk w = ("", some e)) ∧
        (∀ cfg, w.jsonUnmarshalSnykConfig c = .ok cfg →
          isAuthenticatedOnSnyk w = (cfg.api, none)))) := by
  intro h hh
  refine ⟨fun hf => ?_, fun e hf => ?_, fun c hf => ⟨fun e hj => ?_, fun cfg hj => ?_⟩⟩ <;>
    simp [isAuthenticatedOnSnyk, hh, hf] <;> simp [hj]

/-- Claim C9 witness: in `unauthWorld` the config file is missing and the
function reports the empty token with no error. -/
theorem isAuthenticatedOnSnyk_cases_witness :
    isAuthenticatedOnSnyk unauthWorld = ("", none) :=
  ((isAuthenticatedOnSnyk_cases unauthWorld) "/home/user" rfl).1 rfl

/-- Claim C1: when `Scan` reaches the subprocess and the run fails with a
non-zero exit (an `*exec.ExitError`, not a binary-not-found error), the
error is returned unchanged, so the scanner's exit code (0 clean, 1
vulnerabilities, other tool error) is relayed verbatim to the caller. -/
theorem Scan_relays_exit_error (w : World) (s : snykProvider) (image : String)
    (cmd : Cmd) (code : Nat) (msg : String)
    (hspawn : (Scan w s image).1 = some cmd)
    (hrun : w.runResult cmd = some (.exitError code msg)) :
    (Scan w s image).2 = some (.exitError code msg) := by
  unfold Scan at hspawn ⊢
  by_cases hc : (isAuthenticatedOnSnyk w).1 = "" ∨ (isAuthenticatedOnSnyk w).2.isSome
  · rw [if_pos hc] at hspawn ⊢
    rcases hg : w.getToken with e | token <;> rw [hg] at hspawn
    · exact absurd hspawn (by simp)
    · have h2 : scanDockerTokenCmd w s image token = cmd := Option.some.inj hspawn
      rw [← h2] at hrun
      simp [hg, hrun, checkCommandErr, checkCommandErrE]
  · rw [if_neg hc] at hspawn ⊢
    have h2 : scanSnykTokenCmd w s image (isAuthenticatedOnSnyk w).1 = cmd :=
      Option.some.inj hspawn
    rw [← h2] at hrun
    simp [hrun, checkCommandErr, checkCommandErrE]

/-- Claim C1 witness: in `authWorld` the subprocess exits with status 1 and
`Scan` returns exactly that exit error. -/
theorem Scan_relays_exit_error_witness :
    (Scan authWorld sampleProvider "myimage").2 = some (.exitError 1 "exit status 1") :=
  Scan_relays_exit_error authWorld sampleProvider "myimage"
    (scanSnykTokenCmd authWorld sampleProvider "myimage" "tok") 1 "exit status 1" rfl rfl

/-- Claim C2: when the local config yields an empty token or an error,
`Scan` consults the identity service — a failed fetch aborts with the
`failed to get DockerScanID` error, a successful one passes the token as
`SNYK_DOCKER_TOKEN`; otherwise the discovered token is passed as
`SNYK_TOKEN`. The two command forms each append exactly one of the two
variables. -/
theorem Scan_token_selection (w : World) (s : snykProvider) (image : String) :
    ((isAuthenticatedOnSnyk w).1 = "" ∨ (isAuthenticatedOnSnyk w).2.isSome →
      (∀ e, w.getToken = .error e →
        Scan w s image =
          (none, some (.errorf ("failed to get DockerScanID: " ++ errorMessage e)))) ∧
      (∀ token, w.getToken = .ok token →
        (Scan w s image).1 = some (scanDockerTokenCmd w s image token))) ∧
    (¬((isAuthenticatedOnSnyk w).1 = "" ∨ (isAuthenticatedOnSnyk w).2.isSome) →
      (Scan w s image).1 = some (scanSnykTokenCmd w s image (isAuthenticatedOnSnyk w).1)) := by
  refine ⟨fun hc => ⟨fun e hg => ?_, fun token hg => ?_⟩, fun hc => ?_⟩
  · simp [Scan, hc, hg]
  · simp [Scan, hc, hg]
  · simp [Scan, hc]

/-- Claim C2 witness: in `tokenFailWorld` the config file is missing and
the identity service fails, so `Scan` aborts with the DockerScanID error. -/
theorem Scan_token_selection_witness :
    Scan tokenFailWorld sampleProvider "img" =
      (none, some (.errorf ("failed to get DockerScanID: " ++ errorMessage (.errorf "boom")))) :=
  ((Scan_token_selection tokenFailWorld sampleProvider "img").1 (Or.inl rfl)).1
    (.errorf "boom") rfl

/-- Claim C3: when the installed scanner's cleaned `--version` output
parses as `ver` and the `>=` constraint on the desktop version parses, the
gate returns `true` exactly when `ver` satisfies the constraint under
semver range semantics, and a failed check returns `false` together with
the fallback warning. -/
theorem checkUserSnykBinaryVersion_constraint (out desktopVersion : String)
    (ver con : Semver)
    (hv : semverNewVersion (cleanVersion out) = some ver)
    (hc : semverNewConstraintGE desktopVersion = some con) :
    ((checkUserSnykBinaryVersion (.ok out) desktopVersion).1 = true ↔
      constraintCheckGE con ver = true) ∧
    (constraintCheckGE con ver = false →
      checkUserSnykBinaryVersion (.ok out) desktopVersion =
        (false, some (.errorf (versionWarning ver desktopVersion)))) := by
  constructor
  · rcases h3 : constraintCheckGE con ver <;>
      simp [checkUserSnykBinaryVersion, hv, hc, h3]
  · intro h3
    simp [checkUserSnykBinaryVersion, hv, hc, h3]

/-- Claim C3 witness: installed `1.355.0` against desktop `1.360.0` — the
check fails and the gate reports `false` with the fallback warning. -/
theorem checkUserSnykBinaryVersion_constraint_witness :
    (((checkUserSnykBinaryVersion (.ok "1.355.0") "1.360.0").1 = true ↔
      constraintCheckGE ⟨1, 360, 0, [], ""⟩ ⟨1, 355, 0, [], ""⟩ = true) ∧
    (constraintCheckGE ⟨1, 360, 0, [], ""⟩ ⟨1, 355, 0, [], ""⟩ = false →
      checkUserSnykBinaryVersion (.ok "1.355.0") "1.360.0" =
        (false, some (.errorf (versionWarning ⟨1, 355, 0, [], ""⟩ "1.360.0"))))) :=
  checkUserSnykBinaryVersion_constraint "1.355.0" "1.360.0" ⟨1, 355, 0, [], ""⟩
    ⟨1, 360, 0, [], ""⟩ (by decide) (by decide)

/-- Claim C4: `Authenticate` rejects a token with `invalidTokenError` if
and only if it is non-empty and fails UUID parsing; an empty token skips
validation and goes straight to the `auth` subcommand. -/
theorem Authenticate_token_validation (w : World) (s : snykProvider) (token : String)
    (hrun : ∀ c t, w.runResult c ≠ some (.invalidToken t)) :
    ((∃ t, (Authenticate w s token).2 = some (.invalidToken t)) ↔
      (token ≠ "" ∧ uuidParse token = false)) ∧
    (token = "" →
      Authenticate w s token =
        (some (authenticateCmd w s token),
          checkCommandErr (w.runResult (authenticateCmd w s token)))) ∧
    (authenticateCmd w s token).args = ["auth", token] := by
  refine ⟨⟨?_, ?_⟩, fun he => ?_, rfl⟩
  · rintro ⟨t, ht⟩
    by_cases hcond : token ≠ "" ∧ uuidParse token = false
    · exact hcond
    · exfalso
      unfold Authenticate at ht
      rw [if_neg hcond] at ht
      rcases hr : w.runResult (authenticateCmd w s token) with _ | e <;> rw [hr] at ht
      · simp [checkCommandErr] at ht
      · simp [checkCommandErr] at ht
        rw [checkCommandErrE_invalidToken e t ht] at hr
        exact hrun _ t hr
  · rintro ⟨hne, hfail⟩
    exact ⟨token, by simp [Authenticate, hne, hfail]⟩
  · simp [Authenticate, he]

/-- Claim C4 witness: a non-empty malformed token is rejected as invalid
(in a world whose subprocess never produces an `invalidTokenError`). -/
theorem Authenticate_token_validation_witness :
    ((∃ t, (Authenticate authWorld sampleProvider "not-a-uuid").2 = some (.invalidToken t)) ↔
      ("not-a-uuid" ≠ "" ∧ uuidParse "not-a-uuid" = false)) ∧
    ("not-a-uuid" = "" →
      Authenticate authWorld sampleProvider "not-a-uuid" =
        (some (authenticateCmd authWorld sampleProvider "not-a-uuid"),
          checkCommandErr (authWorld.runResult
            (authenticateCmd authWorld sampleProvider "not-a-uuid")))) ∧
    (authenticateCmd authWorld sampleProvider "not-a-uuid").args = ["auth", "not-a-uuid"] :=
  Authenticate_token_validation authWorld sampleProvider "not-a-uuid"
    (fun c t h => by simp [authWorld] at h)

/-- Claim C6: a successful `--version` run yields `Snyk (<trimmed stdout>)`
with a nil error; a failed run yields the empty string and an error whose
message extends `failed to get snyk version: ` — by the normalised run
error alone when stderr is empty, and additionally by `,<stderr>` when it
is not. -/
theorem Version_format (w : World) (s : snykProvider) :
    (w.runResult (versionCmd w s) = none →
      Version w s = ("Snyk (" ++ goTrimSpace (w.runStdout (versionCmd w s)) ++ ")", none)) ∧
    (∀ e, w.runResult (versionCmd w s) = some e →
      (Version w s).1 = "" ∧
      (w.runStderr (versionCmd w s) = "" →
        (Version w s).2 = some (.errorf
          ("failed to get snyk version: " ++ errorMessage (checkCommandErrE e)))) ∧
      (w.runStderr (versionCmd w s) ≠ "" →
        (Version w s).2 = some (.errorf
          ("failed to get snyk version: " ++ errorMessage (checkCommandErrE e) ++ ","
            ++ w.runStderr (versionCmd w s))))) := by
  refine ⟨fun h => by simp [Version, h], fun e h => ?_⟩
  refine ⟨by simp [Version, h], fun hs => ?_, fun hs => ?_⟩ <;>
    simp [Version, versionErrMsg, h, hs]

/-- Claim C6 witness: in `authWorld` the run fails with exit status 1 and
an empty stderr buffer, and the error message is the bare prefix plus the
normalised run error. -/
theorem Version_format_witness :
    (Version authWorld sampleProvider).2 = some (.errorf
      ("failed to get snyk version: "
        ++ errorMessage (checkCommandErrE (.exitError 1 "exit status 1")))) :=
  ((Version_format authWorld sampleProvider).2 (.exitError 1 "exit status 1") rfl).2.1 rfl

/-- Claim C7: every command the provider builds runs with the ambient
environment extended by the three base entries; `Authenticate` further
appends the three campaign entries; the command `Scan` runs appends exactly
one token variable, either `SNYK_DOCKER_TOKEN` or `SNYK_TOKEN`, and no
operation appends any other `SNYK_*` entry. -/
theorem provider_subprocess_env (w : World) (s : snykProvider) (token image : String) :
    (authenticateCmd w s token).env = w.osEnviron ++ snykBaseEnv ++ snykUtmEnv ∧
    (versionCmd w s).env = w.osEnviron ++ snykBaseEnv ∧
    (∀ cmd, (Scan w s image).1 = some cmd →
      (∃ t, cmd.env = w.osEnviron ++ snykBaseEnv ++ ["SNYK_DOCKER_TOKEN=" ++ t]) ∨
      (∃ t, cmd.env = w.osEnviron ++ snykBaseEnv ++ ["SNYK_TOKEN=" ++ t])) ∧
    snykBaseEnv = ["NO_UPDATE_NOTIFIER=true", "SNYK_CFG_DISABLESUGGESTIONS=true",
      "SNYK_INTEGRATION_NAME=DOCKER_DESKTOP"] ∧
    snykUtmEnv = ["SNYK_UTM_MEDIUM=Partner", "SNYK_UTM_SOURCE=Docker",
      "SNYK_UTM_CAMPAIGN=Docker-Desktop-2020"] := by
  refine ⟨by simp [authenticateCmd, newCommand], rfl, ?_, rfl, rfl⟩
  intro cmd hspawn
  unfold Scan at hspawn
  by_cases hc : (isAuthenticatedOnSnyk w).1 = "" ∨ (isAuthenticatedOnSnyk w).2.isSome
  · rw [if_pos hc] at hspawn
    rcases hg : w.getToken with e | t <;> rw [hg] at hspawn
    · exact absurd hspawn (by simp)
    · have h2 : scanDockerTokenCmd w s image t = cmd := Option.some.inj hspawn
      exact Or.inl ⟨t, by rw [← h2]; rfl⟩
  · rw [if_neg hc] at hspawn
    have h2 : scanSnykTokenCmd w s image (isAuthenticatedOnSnyk w).1 = cmd :=
      Option.some.inj hspawn
    exact Or.inr ⟨(isAuthenticatedOnSnyk w).1, by rw [← h2]; rfl⟩

/-- Claim C7 witness: the command `Scan` spawns in `authWorld` carries one
token variable, here `SNYK_TOKEN`. -/
theorem provider_subprocess_env_witness :
    (∃ t, (scanSnykTokenCmd authWorld sampleProvider "img" "tok").env =
        authWorld.osEnviron ++ snykBaseEnv ++ ["SNYK_DOCKER_TOKEN=" ++ t]) ∨
    (∃ t, (scanSnykTokenCmd authWorld sampleProvider "img" "tok").env =
        authWorld.osEnviron ++ snykBaseEnv ++ ["SNYK_TOKEN=" ++ t]) :=
  (provider_subprocess_env authWorld sampleProvider "" "img").2.2.1
    (scanSnykTokenCmd authWorld sampleProvider "img" "tok") rfl

end ScanPlugin
